import Mathlib

/-!
# Verification of the SCUM max-stats save editor (`src/max_prisoner.py`)

Shallow embedding of the pure core of the tool:

* the binary blob patcher `update_body_sim`,
* the skill updater `update_skills`,
* the record accessor `load_prisoner` / `save_prisoner`.

Byte buffers (`bytearray` / `bytes`) are modelled as `List Nat` (each entry a
byte value).  Machine floats are modelled by their IEEE-754 bit patterns as
natural numbers: `struct.pack "<d"` / `"<f"` / `"<?"` serialises the pattern
little-endian over the type's byte width, and `struct.unpack` recovers the
pattern; the numeric interpretation of the pattern plays no role in the code
being verified.  Python exceptions are modelled by explicit error values
returned next to the (otherwise in-place mutated) buffer.
-/

namespace MaxPrisoner

/-- `BODY_SIM_KEY_PADDING = 5` from the source. -/
def BODY_SIM_KEY_PADDING : Nat := 5

/-- `BODY_SIM_VALUE_PADDING = 10` from the source. -/
def BODY_SIM_VALUE_PADDING : Nat := 10

/-- The `struct_type` literal of a `PropertyType`: one of the Python struct
format strings `"<d"`, `"<f"`, `"<?"`. -/
inductive StructType where
  | d   -- "<d", little-endian 64-bit double
  | f   -- "<f", little-endian 32-bit float
  | q   -- "<?", 1-byte boolean
  deriving DecidableEq, Repr

/-- The number of bytes `struct.pack` produces for each format string. -/
def structWidth : StructType → Nat
  | .d => 8
  | .f => 4
  | .q => 1

/-- The `PropertyType` dataclass from the source: a type tag name (a byte
string), a byte width, and the struct format used for conversion. -/
structure PropertyType where
  name : List Nat
  width : Nat
  struct_type : StructType
  deriving DecidableEq, Repr

/-- ASCII bytes of `b"DoubleProperty"`. -/
def doublePropertyName : List Nat :=
  [68, 111, 117, 98, 108, 101, 80, 114, 111, 112, 101, 114, 116, 121]

/-- ASCII bytes of `b"FloatProperty"`. -/
def floatPropertyName : List Nat :=
  [70, 108, 111, 97, 116, 80, 114, 111, 112, 101, 114, 116, 121]

/-- ASCII bytes of `b"BoolProperty"`. -/
def boolPropertyName : List Nat :=
  [66, 111, 111, 108, 80, 114, 111, 112, 101, 114, 116, 121]

/-- `DoubleProperty = PropertyType(name=b"DoubleProperty", width=8, struct_type="<d")`. -/
def DoubleProperty : PropertyType := ⟨doublePropertyName, 8, .d⟩

/-- `FloatProperty = PropertyType(name=b"FloatProperty", width=4, struct_type="<f")`. -/
def FloatProperty : PropertyType := ⟨floatPropertyName, 4, .f⟩

/-- `BoolProperty = PropertyType(name=b"BoolProperty", width=1, struct_type="<?")`. -/
def BoolProperty : PropertyType := ⟨boolPropertyName, 1, .q⟩

/-- The closed set of supported type descriptors (64-bit double, 32-bit float,
1-byte boolean). -/
def Supported (pt : PropertyType) : Prop :=
  pt = DoubleProperty ∨ pt = FloatProperty ∨ pt = BoolProperty

instance : DecidablePred Supported := fun pt => by
  unfold Supported; infer_instance

/-- Little-endian serialisation of the low `n` bytes of a bit pattern `v`:
the model of `struct.pack(fmt, value)`, where `v` is the IEEE-754 bit pattern
(resp. 0/1 for booleans) of the Python value. -/
def packLE : Nat → Nat → List Nat
  | 0, _ => []
  | n + 1, v => v % 256 :: packLE n (v / 256)

/-- Little-endian deserialisation of a byte list back into a bit pattern:
the model of `struct.unpack(fmt, bytes)`. -/
def unpackLE : List Nat → Nat
  | [] => 0
  | b :: bs => b + 256 * unpackLE bs

/-- The key `k` occurs (as a contiguous byte run) at offset `i` of buffer `b`:
the `k.length` bytes of `b` starting at `i` are exactly `k`. -/
def prefixAt (k b : List Nat) (i : Nat) : Prop :=
  (b.drop i).take k.length = k

instance (k b : List Nat) (i : Nat) : Decidable (prefixAt k b i) := by
  unfold prefixAt; infer_instance

/-- Model of `bytearray.index`: the first (lowest) offset at which `pat`
occurs contiguously in `hay`, or `none` when it occurs nowhere
(Python raises `ValueError` there). -/
def findKey (hay pat : List Nat) : Option Nat :=
  if hay.take pat.length = pat then some 0
  else
    match hay with
    | [] => none
    | _ :: t => (findKey t pat).map (· + 1)

/-- Model of the Python slice assignment `l[a : a + w] = vb` on a `bytearray`:
both slice bounds clamp to the length of `l`, the selected slice is removed and
`vb` is spliced in.  When the window reaches past the end this *changes the
length* of the buffer. -/
def setSlice (l : List Nat) (a w : Nat) (vb : List Nat) : List Nat :=
  l.take a ++ vb ++ l.drop (a + w)

/-- The exceptions `update_body_sim` can raise: `ValueError` from
`bytearray.index` when the key is absent (the spec's `FieldNotFoundError`),
and `AssertionError` from the type-tag check (the spec's `TypeMismatchError`). -/
inductive PatchError where
  | fieldNotFound
  | typeMismatch
  deriving DecidableEq, Repr

/-- `update_body_sim(body_sim, key, value, property_type)` from the source.

The Python function mutates `body_sim` in place and returns nothing; raised
exceptions abort it before any mutation.  We model it as returning the pair
of (raised exception, buffer as the caller sees it afterwards): on an error
the buffer is returned unchanged, mirroring that both possible exceptions
fire before the single mutating statement.

`value` is the bit pattern of the Python float (see module doc); `struct.pack`
is `packLE` over `structWidth property_type.struct_type` bytes. -/
def update_body_sim (body_sim key : List Nat) (value : Nat) (pt : PropertyType) :
    Option PatchError × List Nat :=
  match findKey body_sim key with
  | none => (some PatchError.fieldNotFound, body_sim)
  | some key_offset =>
    if (body_sim.drop (key_offset + key.length + BODY_SIM_KEY_PADDING)).take pt.name.length
        = pt.name then
      let value_offset :=
        key_offset + key.length + BODY_SIM_KEY_PADDING + pt.name.length
          + BODY_SIM_VALUE_PADDING
      let value_bytes := packLE (structWidth pt.struct_type) value
      (none, setSlice body_sim value_offset pt.width value_bytes)
    else (some PatchError.typeMismatch, body_sim)

/-- One row of the `prisoner_skill` table belonging to the chosen record:
`(name, level, experience)`.  The `prisoner_id` column is implicit: a list of
`SkillRow`s stands for the rows of one fixed record. -/
structure SkillRow where
  name : String
  level : Int
  experience : Int
  deriving DecidableEq, Repr

/-- The `SET_SKILLS` configuration constant from the source, as an association
list `name ↦ (level, experience)`. -/
def SET_SKILLS : List (String × Int × Int) :=
  [("BoxingSkill", 3, 10000000), ("AwarenessSkill", 3, 10000000),
   ("RiflesSkill", 3, 10000000), ("SnipingSkill", 3, 10000000),
   ("CamouflageSkill", 3, 10000000), ("SurvivalSkill", 3, 10000000),
   ("MeleeWeaponsSkill", 3, 10000000), ("HandgunSkill", 3, 10000000),
   ("RunningSkill", 3, 10000000), ("EnduranceSkill", 3, 10000000),
   ("TacticsSkill", 3, 10000000), ("CookingSkill", 3, 10000000),
   ("ThieverySkill", 3, 10000000), ("ArcherySkill", 3, 10000000),
   ("DrivingSkill", 3, 10000000), ("EngineeringSkill", 3, 10000000),
   ("DemolitionSkill", 3, 10000000), ("MedicalSkill", 3, 10000000),
   ("MotorcycleSkill", 3, 10000000), ("StealthSkill", 3, 10000000),
   ("AviationSkill", 3, 10000000), ("ResistanceSkill", 3, 10000000),
   ("FarmingSkill", 3, 10000000)]

/-- `update_skills(con, prisoner)` from the source, restricted to the rows of
the chosen record.  The Python loop walks every `prisoner_skill` row of the
record; a row whose name is not in the override mapping is skipped
(`continue`), a row whose name is mapped gets its `level` and `experience`
columns overwritten by the mapped pair (`UPDATE prisoner_skill SET level = ?,
experience = ? WHERE prisoner_id = ? AND name = ?`).  The override mapping is
a parameter here; the source instantiates it with `SET_SKILLS`. -/
def update_skills (set_skills : String → Option (Int × Int)) (rows : List SkillRow) :
    List SkillRow :=
  rows.map fun r =>
    match set_skills r.name with
    | none => r
    | some le => { r with level := le.1, experience := le.2 }

/-- One row of the `prisoner` table: the numeric id, the `body_simulation`
blob column, and all remaining columns (opaque for this tool, modelled as an
association list). -/
structure Prisoner where
  id : Int
  body_simulation : List Nat
  rest : List (String × Int)
  deriving DecidableEq, Repr

/-- `save_prisoner(con, prisoner)` from the source: executes
`UPDATE prisoner SET body_simulation = ? WHERE id = ?`.  Every row whose id
matches gets only its `body_simulation` column replaced; the second component
is the number of affected rows (the `rowcount` of the returned cursor).  The
source returns the cursor without inspecting this count and raises nothing. -/
def save_prisoner (table : List Prisoner) (p : Prisoner) : List Prisoner × Nat :=
  (table.map fun r =>
      if r.id = p.id then { r with body_simulation := p.body_simulation } else r,
   (table.filter fun r => r.id == p.id).length)

/-- The exception behaviour of `load_prisoner`.  `typeError` is the Python
`TypeError` raised by `zip(cur.description, None)` when `fetchone()` finds no
row.  `notFoundError` is modelled from the spec: the `NotFoundError` of the
spec's error taxonomy (§7), included so the claim about it can be stated; the
source never produces it. -/
inductive LoadError where
  | typeError
  | notFoundError
  deriving DecidableEq, Repr

/-- `load_prisoner(con, id)` from the source: `SELECT * FROM prisoner WHERE
id = ?` followed by `fetchone()` and building the column-name→value mapping.
`fetchone()` yields the first matching row (returned here as the `Prisoner`
record, which is that mapping); when no row matches, `fetchone()` returns
`None` and `zip(cur.description, None)` raises `TypeError`. -/
def load_prisoner (table : List Prisoner) (id : Int) : Except LoadError Prisoner :=
  match table.find? (fun r => r.id == id) with
  | some r => Except.ok r
  | none => Except.error LoadError.typeError

/-! ### Concrete example buffers and tables used by witnesses and
counterexamples -/

/-- An 18-byte buffer that ends immediately after the `BoolProperty` type
tag: key byte 75 at offset 0, five padding bytes, then the tag bytes.  Its
value window `[28, 29)` lies wholly past the end of the buffer. -/
def shortBuf : List Nat := 75 :: ([0, 0, 0, 0, 0] ++ boolPropertyName)

/-- A well-formed 29-byte buffer: key byte 75 at offset 0, five padding
bytes, the `BoolProperty` tag, ten padding bytes, and a one-byte value 0 at
offset 28. -/
def wellBuf : List Nat :=
  75 :: ([0, 0, 0, 0, 0] ++ boolPropertyName ++ [9, 9, 9, 9, 9, 9, 9, 9, 9, 9] ++ [0])

/-- `wellBuf` after patching the one-byte value at offset 28 to 1. -/
def wellBufPatched : List Nat :=
  75 :: ([0, 0, 0, 0, 0] ++ boolPropertyName ++ [9, 9, 9, 9, 9, 9, 9, 9, 9, 9] ++ [1])

/-- A 19-byte buffer whose type tag is `FloatProperty` instead of
`BoolProperty`: key byte 75, five padding bytes, then the wrong tag. -/
def mismatchBuf : List Nat := 75 :: ([0, 0, 0, 0, 0] ++ floatPropertyName)

/-- Example skill rows from the spec scenario: `{A:(0,0), B:(1,100)}`. -/
def exRows : List SkillRow := [⟨"A", 0, 0⟩, ⟨"B", 1, 100⟩]

/-- Example override mapping from the spec scenario: `{A:(3,10000000)}`. -/
def exOv : String → Option (Int × Int) :=
  fun n => if n = "A" then some (3, 10000000) else none

/-- An example `prisoner` table with two records. -/
def exTable : List Prisoner := [⟨1, [7], [("x", 2)]⟩, ⟨2, [9], []⟩]

/-- An example record (id 1) carrying a new blob to be written back. -/
def exSave : Prisoner := ⟨1, [5], []⟩

/-! ### Lemmas about the byte-level primitives -/

theorem packLE_length (n v : Nat) : (packLE n v).length = n := by
  induction n generalizing v with
  | zero => rfl
  | succ n ih => simp [packLE, ih]

theorem unpackLE_packLE (n v : Nat) : unpackLE (packLE n v) = v % 256 ^ n := by
  induction n generalizing v with
  | zero => simp [packLE, unpackLE, Nat.mod_one]
  | succ n ih =>
    rw [packLE, unpackLE, ih, pow_succ, mul_comm (256 ^ n) 256]
    exact Nat.mod_mul.symm

theorem structWidth_eq {pt : PropertyType} (hpt : Supported pt) :
    structWidth pt.struct_type = pt.width := by
  rcases hpt with rfl | rfl | rfl <;> rfl

theorem prefixAt_nil (k : List Nat) (i : Nat) : prefixAt k [] i ↔ k = [] := by
  simp [prefixAt, eq_comm]

theorem prefixAt_zero (k b : List Nat) : prefixAt k b 0 ↔ b.take k.length = k := by
  simp [prefixAt]

theorem prefixAt_cons_succ (k : List Nat) (x : Nat) (t : List Nat) (i : Nat) :
    prefixAt k (x :: t) (i + 1) ↔ prefixAt k t i := by
  simp [prefixAt, List.drop_succ_cons]

theorem prefixAt_subset {k b : List Nat} {i : Nat} (h : prefixAt k b i) :
    ∀ x ∈ k, x ∈ b := by
  intro x hx
  rw [prefixAt] at h
  have h1 : x ∈ (b.drop i).take k.length := by rw [h]; exact hx
  exact List.drop_subset i b (List.take_subset _ _ h1)

theorem findKey_eq_some_iff (hay pat : List Nat) (i : Nat) :
    findKey hay pat = some i ↔ prefixAt pat hay i ∧ ∀ j < i, ¬ prefixAt pat hay j := by
  induction hay generalizing i with
  | nil =>
    rw [findKey]
    split
    next hp =>
      have hk : pat = [] := by simpa using hp.symm
      subst hk
      constructor
      · intro h
        cases h
        exact ⟨by simp [prefixAt], by omega⟩
      · rintro ⟨-, hmin⟩
        rcases Nat.eq_zero_or_pos i with rfl | h0
        · rfl
        · exact absurd (by simp [prefixAt]) (hmin 0 h0)
    next hp =>
      constructor
      · intro h; cases h
      · rintro ⟨hpre, -⟩
        exfalso
        rw [prefixAt] at hpre
        simp only [List.drop_nil, List.take_nil] at hpre
        exact hp (by rw [← hpre]; rfl)
  | cons x t ih =>
    rw [findKey]
    split
    next hp =>
      constructor
      · intro h
        cases h
        exact ⟨by simpa [prefixAt] using hp, by omega⟩
      · rintro ⟨-, hmin⟩
        rcases Nat.eq_zero_or_pos i with rfl | h0
        · rfl
        · exact absurd (by simpa [prefixAt] using hp) (hmin 0 h0)
    next hp =>
      constructor
      · intro h
        rcases Option.map_eq_some'.mp h with ⟨j, hj, rfl⟩
        rcases (ih j).mp hj with ⟨hpre, hmin⟩
        refine ⟨(prefixAt_cons_succ pat x t j).mpr hpre, ?_⟩
        intro j' hj'
        match j' with
        | 0 => simpa [prefixAt] using hp
        | j'' + 1 =>
          rw [prefixAt_cons_succ]
          exact hmin j'' (by omega)
      · rintro ⟨hpre, hmin⟩
        match i with
        | 0 => exact absurd (by simpa [prefixAt] using hpre) hp
        | j + 1 =>
          have hj : findKey t pat = some j := by
            refine (ih j).mpr ⟨(prefixAt_cons_succ pat x t j).mp hpre, ?_⟩
            intro j'' hj''
            have := hmin (j'' + 1) (by omega)
            rwa [prefixAt_cons_succ] at this
          simp [hj]

theorem findKey_eq_none_iff (hay pat : List Nat) :
    findKey hay pat = none ↔ ∀ i, ¬ prefixAt pat hay i := by
  induction hay with
  | nil =>
    rw [findKey]
    split
    next hp =>
      have hk : pat = [] := by simpa using hp.symm
      subst hk
      simp only [reduceCtorEq, false_iff, not_forall]
      exact ⟨0, by simp [prefixAt]⟩
    next hp =>
      simp only [true_iff]
      intro i h
      rw [prefixAt] at h
      simp only [List.drop_nil, List.take_nil] at h
      exact hp (by rw [← h]; rfl)
  | cons x t ih =>
    rw [findKey]
    split
    next hp =>
      simp only [reduceCtorEq, false_iff, not_forall]
      exact ⟨0, by simpa [prefixAt] using hp⟩
    next hp =>
      rw [Option.map_eq_none', ih]
      constructor
      · intro h i
        match i with
        | 0 => simpa [prefixAt] using hp
        | j + 1 => rw [prefixAt_cons_succ]; exact h j
      · intro h j
        have := h (j + 1)
        rwa [prefixAt_cons_succ] at this

theorem setSlice_length (l : List Nat) (a w : Nat) (vb : List Nat) :
    (setSlice l a w vb).length = min a l.length + vb.length + (l.length - (a + w)) := by
  simp [setSlice, List.length_append, List.length_take, List.length_drop]
  omega

theorem setSlice_getElem?_lt (l : List Nat) (a w : Nat) (vb : List Nat) (i : Nat)
    (hi : i < a) (hil : i < l.length) :
    (setSlice l a w vb)[i]? = l[i]? := by
  have h1 : i < (l.take a).length := by rw [List.length_take]; omega
  rw [setSlice, List.append_assoc, List.getElem?_append_left h1, List.getElem?_take]
  simp [hi]

theorem setSlice_getElem?_ge (l : List Nat) (a w : Nat) (vb : List Nat) (i : Nat)
    (hw : vb.length = w) (hi : a + w ≤ i) (hil : i < l.length) :
    (setSlice l a w vb)[i]? = l[i]? := by
  have hta : (l.take a).length = a := by rw [List.length_take]; omega
  have h1 : (l.take a).length ≤ i := by omega
  rw [setSlice, List.append_assoc, List.getElem?_append_right h1, hta]
  have h2 : vb.length ≤ i - a := by omega
  rw [List.getElem?_append_right h2, hw, List.getElem?_drop]
  congr 1
  omega

theorem setSlice_extract_before (l : List Nat) (a w : Nat) (vb : List Nat) (i n : Nat)
    (hn : i + n ≤ a) (ha : a ≤ l.length) :
    ((setSlice l a w vb).drop i).take n = (l.drop i).take n := by
  have hta : (l.take a).length = a := by rw [List.length_take]; omega
  have h0 : i - (l.take a).length = 0 := by omega
  rw [setSlice, List.append_assoc, List.drop_append_eq_append_drop, h0, List.drop_zero,
    List.take_append_eq_append_take]
  have hlen : ((l.take a).drop i).length = a - i := by
    rw [List.length_drop, hta]
  rw [hlen]
  have h1 : n - (a - i) = 0 := by omega
  rw [h1, List.take_zero, List.append_nil, List.drop_take, List.take_take]
  congr 1
  omega

theorem setSlice_extract_window (l : List Nat) (a w : Nat) (vb : List Nat)
    (ha : a ≤ l.length) :
    ((setSlice l a w vb).drop a).take vb.length = vb := by
  have hta : (l.take a).length = a := by rw [List.length_take]; omega
  have h1 : (l.take a).drop a = [] := by
    apply List.drop_eq_nil_of_le
    omega
  rw [setSlice, List.append_assoc, List.drop_append_eq_append_drop, h1, hta, Nat.sub_self,
    List.drop_zero, List.nil_append, List.take_append_eq_append_take, List.take_length,
    Nat.sub_self, List.take_zero, List.append_nil]

theorem setSlice_idem (l : List Nat) (a w : Nat) (vb : List Nat)
    (ha : a ≤ l.length) (hw : vb.length = w) :
    setSlice (setSlice l a w vb) a w vb = setSlice l a w vb := by
  have hta : (l.take a).length = a := by rw [List.length_take]; omega
  have htake : (setSlice l a w vb).take a = l.take a := by
    rw [setSlice, List.append_assoc, List.take_append_eq_append_take, hta, Nat.sub_self,
      List.take_zero, List.append_nil, List.take_take]
    congr 1
    omega
  have hdrop : (setSlice l a w vb).drop (a + w) = l.drop (a + w) := by
    have h1 : (l.take a).drop (a + w) = [] := by
      apply List.drop_eq_nil_of_le
      rw [hta]
      omega
    have h2 : vb.drop (a + w - (l.take a).length) = [] := by
      apply List.drop_eq_nil_of_le
      rw [hta]
      omega
    have h3 : a + w - (l.take a).length - vb.length = 0 := by
      rw [hta]
      omega
    rw [setSlice, List.append_assoc, List.drop_append_eq_append_drop,
      List.drop_append_eq_append_drop, h1, h2, h3, List.nil_append, List.nil_append,
      List.drop_zero]
  calc setSlice (setSlice l a w vb) a w vb
      = (setSlice l a w vb).take a ++ vb ++ (setSlice l a w vb).drop (a + w) := rfl
    _ = l.take a ++ vb ++ l.drop (a + w) := by rw [htake, hdrop]
    _ = setSlice l a w vb := rfl

/-! ### Characterisation of `update_body_sim` -/

theorem update_body_sim_eq_of_not_found (b k : List Nat) (v : Nat) (pt : PropertyType)
    (hko : findKey b k = none) :
    update_body_sim b k v pt = (some PatchError.fieldNotFound, b) := by
  unfold update_body_sim
  rw [hko]

theorem update_body_sim_eq_of_mismatch (b k : List Nat) (v : Nat) (pt : PropertyType)
    (ko : Nat) (hko : findKey b k = some ko)
    (htag : (b.drop (ko + k.length + BODY_SIM_KEY_PADDING)).take pt.name.length ≠ pt.name) :
    update_body_sim b k v pt = (some PatchError.typeMismatch, b) := by
  unfold update_body_sim
  rw [hko]
  simp [htag]

theorem update_body_sim_eq_of_found (b k : List Nat) (v : Nat) (pt : PropertyType)
    (ko : Nat) (hko : findKey b k = some ko)
    (htag : (b.drop (ko + k.length + BODY_SIM_KEY_PADDING)).take pt.name.length = pt.name) :
    update_body_sim b k v pt =
      (none,
        setSlice b
          (ko + k.length + BODY_SIM_KEY_PADDING + pt.name.length + BODY_SIM_VALUE_PADDING)
          pt.width (packLE (structWidth pt.struct_type) v)) := by
  unfold update_body_sim
  rw [hko]
  simp [htag]

theorem update_body_sim_ok_inv {b k : List Nat} {v : Nat} {pt : PropertyType} {b' : List Nat}
    (h : update_body_sim b k v pt = (none, b')) :
    ∃ ko, findKey b k = some ko ∧
      (b.drop (ko + k.length + BODY_SIM_KEY_PADDING)).take pt.name.length = pt.name ∧
      b' = setSlice b
        (ko + k.length + BODY_SIM_KEY_PADDING + pt.name.length + BODY_SIM_VALUE_PADDING)
        pt.width (packLE (structWidth pt.struct_type) v) := by
  cases hko : findKey b k with
  | none =>
    rw [update_body_sim_eq_of_not_found b k v pt hko] at h
    simp at h
  | some ko =>
    by_cases htag :
        (b.drop (ko + k.length + BODY_SIM_KEY_PADDING)).take pt.name.length = pt.name
    · rw [update_body_sim_eq_of_found b k v pt ko hko htag] at h
      simp only [Prod.mk.injEq] at h
      exact ⟨ko, rfl, htag, h.2.symm⟩
    · rw [update_body_sim_eq_of_mismatch b k v pt ko hko htag] at h
      simp at h

theorem update_body_sim_error_frame (b k : List Nat) (v : Nat) (pt : PropertyType)
    (h : ((update_body_sim b k v pt).1).isSome) :
    (update_body_sim b k v pt).2 = b := by
  cases hko : findKey b k with
  | none => rw [update_body_sim_eq_of_not_found b k v pt hko]
  | some ko =>
    by_cases htag :
        (b.drop (ko + k.length + BODY_SIM_KEY_PADDING)).take pt.name.length = pt.name
    · rw [update_body_sim_eq_of_found b k v pt ko hko htag] at h
      simp at h
    · rw [update_body_sim_eq_of_mismatch b k v pt ko hko htag]

/-! ### Claim theorems -/

/-- C5 (confirmed): for every buffer in which the key bytes occur nowhere as a
contiguous byte run, `update_body_sim` fails with the field-not-found error
(Python `ValueError` from `bytearray.index`, the spec's `FieldNotFoundError`)
and the buffer is left byte-for-byte unmodified. -/
theorem update_body_sim_field_not_found (b k : List Nat) (v : Nat) (pt : PropertyType)
    (habs : ∀ i, ¬ prefixAt k b i) :
    update_body_sim b k v pt = (some PatchError.fieldNotFound, b) :=
  update_body_sim_eq_of_not_found b k v pt ((findKey_eq_none_iff b k).mpr habs)

theorem update_body_sim_field_not_found_witness :
    update_body_sim [1, 2] [5] 0 BoolProperty = (some PatchError.fieldNotFound, [1, 2]) :=
  update_body_sim_field_not_found [1, 2] [5] 0 BoolProperty
    (fun _ h => absurd (prefixAt_subset h 5 (by decide)) (by decide))

/-- C4 (confirmed): for every buffer in which the key occurs (at first offset
`ko`), if the bytes at the expected type-tag position
(`ko + k.length + 5`, for the length of the type's name) do not equal the
requested type's name, then `update_body_sim` fails with the type-mismatch
error (Python `AssertionError`, the spec's `TypeMismatchError`) and the buffer
is left byte-for-byte unmodified. -/
theorem update_body_sim_type_mismatch (b k : List Nat) (v : Nat) (pt : PropertyType)
    (ko : Nat) (hocc : prefixAt k b ko) (hmin : ∀ j < ko, ¬ prefixAt k b j)
    (htag : (b.drop (ko + k.length + BODY_SIM_KEY_PADDING)).take pt.name.length ≠ pt.name) :
    update_body_sim b k v pt = (some PatchError.typeMismatch, b) :=
  update_body_sim_eq_of_mismatch b k v pt ko
    ((findKey_eq_some_iff b k ko).mpr ⟨hocc, hmin⟩) htag

theorem update_body_sim_type_mismatch_witness :
    update_body_sim mismatchBuf [75] 1 BoolProperty
      = (some PatchError.typeMismatch, mismatchBuf) :=
  update_body_sim_type_mismatch mismatchBuf [75] 1 BoolProperty 0 (by decide)
    (fun j hj => absurd hj (Nat.not_lt_zero j)) (by decide)

/-- C2 (corrected): the original claim — every call leaves the buffer length
unchanged — fails when the computed value window reaches past the end of the
buffer (see the counterexample).  Amended: every failing call returns the
buffer unchanged (hence with its length unchanged), and every call in which
the value window of the found key lies within the buffer preserves the
buffer's length. -/
theorem update_body_sim_length_invariant (b k : List Nat) (v : Nat) (pt : PropertyType)
    (hpt : Supported pt) :
    (((update_body_sim b k v pt).1).isSome → (update_body_sim b k v pt).2 = b) ∧
    (∀ ko, findKey b k = some ko →
      ko + k.length + BODY_SIM_KEY_PADDING + pt.name.length + BODY_SIM_VALUE_PADDING
          + pt.width ≤ b.length →
      ((update_body_sim b k v pt).2).length = b.length) := by
  refine ⟨update_body_sim_error_frame b k v pt, ?_⟩
  intro ko hko hfit
  by_cases htag :
      (b.drop (ko + k.length + BODY_SIM_KEY_PADDING)).take pt.name.length = pt.name
  · rw [update_body_sim_eq_of_found b k v pt ko hko htag]
    rw [setSlice_length, packLE_length, structWidth_eq hpt]
    omega
  · rw [update_body_sim_eq_of_mismatch b k v pt ko hko htag]

theorem update_body_sim_length_invariant_witness :
    ((update_body_sim wellBuf [75] 1 BoolProperty).2).length = wellBuf.length :=
  (update_body_sim_length_invariant wellBuf [75] 1 BoolProperty
    (Or.inr (Or.inr rfl))).2 0 (by decide) (by decide)

/-- C2 counterexample: on the 18-byte buffer `shortBuf` the patch call
succeeds (key found, tag matches) but the value window `[28, 29)` lies past
the end, so the slice assignment appends and the buffer length changes from
18 to 19 — refuting `len(before) == len(after)` for every call. -/
theorem update_body_sim_length_cex :
    shortBuf.length = 18 ∧
      ((update_body_sim shortBuf [75] 1 BoolProperty).2).length = 19 := by
  constructor
  · decide
  · decide

/-- C10 (confirmed): whenever the key occurs (first offset `ko`), the type tag
matches, and the computed value window extends past the end of the buffer,
`update_body_sim` does not fail; the slice assignment replaces the bytes from
the value offset to the end, and the resulting buffer has length
`min value_offset (length before) + width` — the buffer grows instead of an
out-of-bounds error being raised. -/
theorem update_body_sim_overflow_growth (b k : List Nat) (v : Nat) (pt : PropertyType)
    (ko : Nat) (hpt : Supported pt)
    (hko : findKey b k = some ko)
    (htag : (b.drop (ko + k.length + BODY_SIM_KEY_PADDING)).take pt.name.length = pt.name)
    (hover : b.length <
      ko + k.length + BODY_SIM_KEY_PADDING + pt.name.length + BODY_SIM_VALUE_PADDING
        + pt.width) :
    (update_body_sim b k v pt).1 = none ∧
      ((update_body_sim b k v pt).2).length =
        min (ko + k.length + BODY_SIM_KEY_PADDING + pt.name.length + BODY_SIM_VALUE_PADDING)
          b.length + pt.width := by
  rw [update_body_sim_eq_of_found b k v pt ko hko htag]
  refine ⟨rfl, ?_⟩
  rw [setSlice_length, packLE_length, structWidth_eq hpt]
  omega

theorem update_body_sim_overflow_growth_witness :
    (update_body_sim shortBuf [75] 1 BoolProperty).1 = none ∧
      ((update_body_sim shortBuf [75] 1 BoolProperty).2).length = min 28 18 + 1 :=
  update_body_sim_overflow_growth shortBuf [75] 1 BoolProperty 0
    (Or.inr (Or.inr rfl)) (by decide) (by decide) (by decide)

/-- C3 (confirmed): for every buffer, key, value and supported type descriptor
such that `update_body_sim` succeeds, every byte of the buffer outside the
computed value window `[value_offset, value_offset + width)` is identical to
the corresponding byte of the pre-patch buffer. -/
theorem update_body_sim_frame (b k : List Nat) (v : Nat) (pt : PropertyType)
    (b' : List Nat) (ko i : Nat)
    (hpt : Supported pt)
    (hsucc : update_body_sim b k v pt = (none, b'))
    (hko : findKey b k = some ko)
    (hil : i < b.length)
    (hout : i < ko + k.length + BODY_SIM_KEY_PADDING + pt.name.length + BODY_SIM_VALUE_PADDING
      ∨ ko + k.length + BODY_SIM_KEY_PADDING + pt.name.length + BODY_SIM_VALUE_PADDING
          + pt.width ≤ i) :
    b'[i]? = b[i]? := by
  obtain ⟨ko', hko', htag, hb'⟩ := update_body_sim_ok_inv hsucc
  rw [hko] at hko'
  injection hko' with heq
  subst heq
  subst hb'
  rcases hout with h | h
  · exact setSlice_getElem?_lt b _ pt.width _ i h hil
  · exact setSlice_getElem?_ge b _ pt.width _ i
      (by rw [packLE_length, structWidth_eq hpt]) h hil

theorem update_body_sim_frame_witness :
    wellBufPatched[0]? = wellBuf[0]? :=
  update_body_sim_frame wellBuf [75] 1 BoolProperty wellBufPatched 0 0
    (Or.inr (Or.inr rfl)) (by decide) (by decide) (by decide) (Or.inl (by decide))

/-- C1 (corrected): the original claim — whenever the patch succeeds, decoding
the width bytes at the computed value offset with the type's little-endian
encoding yields exactly the encoded value — fails when the value offset lies
past the end of the buffer, because the slice assignment then appends the
encoded bytes at the end of the buffer rather than at the value offset (see
the counterexample).  Amended with the extra hypothesis that the value offset
is at most the buffer length: then `update_body_sim` locates the key at the
first (lowest) offset where the key bytes occur, and afterwards decoding the
type's byte-width bytes starting at
`key_offset + len(key) + 5 + len(type_name) + 10` with the type's
little-endian encoding yields exactly the encoded value (the bit pattern `v`,
exact within the type's width). -/
theorem update_body_sim_roundtrip (b k : List Nat) (v : Nat) (pt : PropertyType)
    (b' : List Nat) (ko : Nat)
    (hpt : Supported pt) (hv : v < 256 ^ pt.width)
    (hsucc : update_body_sim b k v pt = (none, b'))
    (hko : findKey b k = some ko)
    (hfit : ko + k.length + BODY_SIM_KEY_PADDING + pt.name.length + BODY_SIM_VALUE_PADDING
      ≤ b.length) :
    prefixAt k b ko ∧ (∀ j < ko, ¬ prefixAt k b j) ∧
      unpackLE
        ((b'.drop
            (ko + k.length + BODY_SIM_KEY_PADDING + pt.name.length
              + BODY_SIM_VALUE_PADDING)).take pt.width) = v := by
  obtain ⟨hocc, hmin⟩ := (findKey_eq_some_iff b k ko).mp hko
  refine ⟨hocc, hmin, ?_⟩
  obtain ⟨ko', hko', htag, hb'⟩ := update_body_sim_ok_inv hsucc
  rw [hko] at hko'
  injection hko' with heq
  subst heq
  subst hb'
  have hw : (packLE (structWidth pt.struct_type) v).length = pt.width := by
    rw [packLE_length, structWidth_eq hpt]
  have hext := setSlice_extract_window b
    (ko + k.length + BODY_SIM_KEY_PADDING + pt.name.length + BODY_SIM_VALUE_PADDING)
    pt.width (packLE (structWidth pt.struct_type) v) hfit
  rw [hw] at hext
  rw [hext, structWidth_eq hpt, unpackLE_packLE]
  exact Nat.mod_eq_of_lt hv

theorem update_body_sim_roundtrip_witness :
    prefixAt [75] wellBuf 0 ∧ (∀ j < 0, ¬ prefixAt [75] wellBuf j) ∧
      unpackLE ((wellBufPatched.drop 28).take 1) = 1 :=
  update_body_sim_roundtrip wellBuf [75] 1 BoolProperty wellBufPatched 0
    (Or.inr (Or.inr rfl)) (by decide) (by decide) (by decide) (by decide)

/-- C1 counterexample: on the 18-byte buffer `shortBuf` the patch call
succeeds, the computed value offset is 28, but the resulting buffer has only
19 bytes, so the byte-width slice at the value offset is empty and decodes to
0, not to the encoded value 1. -/
theorem update_body_sim_roundtrip_cex :
    (update_body_sim shortBuf [75] 1 BoolProperty).1 = none ∧
      unpackLE ((((update_body_sim shortBuf [75] 1 BoolProperty).2).drop 28).take 1) ≠ 1 := by
  constructor
  · decide
  · decide

/-- C9 (corrected): the original claim — a successful patch applied a second
time with the same arguments yields the same buffer — fails when the value
offset lies past the end of the buffer: each application then appends the
encoded bytes, so the buffer keeps growing (see the counterexample).  Amended
with the extra hypothesis that the value offset is at most the buffer length:
then the second application also succeeds and returns exactly the buffer
produced by the first. -/
theorem update_body_sim_idempotent (b k : List Nat) (v : Nat) (pt : PropertyType)
    (b' : List Nat) (ko : Nat)
    (hpt : Supported pt)
    (hsucc : update_body_sim b k v pt = (none, b'))
    (hko : findKey b k = some ko)
    (hfit : ko + k.length + BODY_SIM_KEY_PADDING + pt.name.length + BODY_SIM_VALUE_PADDING
      ≤ b.length) :
    update_body_sim b' k v pt = (none, b') := by
  obtain ⟨ko', hko', htag, hb'⟩ := update_body_sim_ok_inv hsucc
  rw [hko] at hko'
  injection hko' with heq
  subst heq
  obtain ⟨hocc, hmin⟩ := (findKey_eq_some_iff b k ko).mp hko
  have hvb : (packLE (structWidth pt.struct_type) v).length = pt.width := by
    rw [packLE_length, structWidth_eq hpt]
  have hko2 : findKey b' k = some ko := by
    rw [findKey_eq_some_iff]
    constructor
    · rw [prefixAt] at hocc ⊢
      rw [hb', setSlice_extract_before b _ pt.width _ ko k.length (by omega) hfit]
      exact hocc
    · intro j hj
      rw [prefixAt, hb',
        setSlice_extract_before b _ pt.width _ j k.length (by omega) hfit]
      exact hmin j hj
  have htag2 :
      (b'.drop (ko + k.length + BODY_SIM_KEY_PADDING)).take pt.name.length = pt.name := by
    rw [hb', setSlice_extract_before b _ pt.width _ _ pt.name.length (by omega) hfit]
    exact htag
  rw [update_body_sim_eq_of_found b' k v pt ko hko2 htag2, hb',
    setSlice_idem b _ pt.width _ hfit hvb]

theorem update_body_sim_idempotent_witness :
    update_body_sim wellBufPatched [75] 1 BoolProperty = (none, wellBufPatched) :=
  update_body_sim_idempotent wellBuf [75] 1 BoolProperty wellBufPatched 0
    (Or.inr (Or.inr rfl)) (by decide) (by decide) (by decide)

/-- C9 counterexample: on the 18-byte buffer `shortBuf` the first patch call
succeeds and appends the encoded byte (length 19); applying the same call to
the result appends again (length 20), so the second application does not
yield the result of the first. -/
theorem update_body_sim_idempotent_cex :
    update_body_sim shortBuf [75] 1 BoolProperty = (none, shortBuf ++ [1]) ∧
      update_body_sim (shortBuf ++ [1]) [75] 1 BoolProperty
        = (none, shortBuf ++ [1, 1]) ∧
      shortBuf ++ [1, 1] ≠ shortBuf ++ [1] := by
  refine ⟨by decide, by decide, by decide⟩

/-- C6 (confirmed): for every set of skill rows of the chosen record and every
override mapping of skill name to (level, experience): after `update_skills`,
every row whose name is in the mapping has its level and experience set to
the mapped pair (name unchanged), every row whose name is not in the mapping
is unchanged, and no skill rows are created or deleted (the row count is
preserved, and an override name with no matching row produces no row). -/
theorem update_skills_spec (ov : String → Option (Int × Int)) (rows : List SkillRow) :
    (update_skills ov rows).length = rows.length ∧
    ∀ (i : Nat) (r : SkillRow), rows[i]? = some r →
      (∀ l e, ov r.name = some (l, e) →
        (update_skills ov rows)[i]? = some ⟨r.name, l, e⟩) ∧
      (ov r.name = none → (update_skills ov rows)[i]? = some r) := by
  constructor
  · exact List.length_map rows _
  · intro i r hr
    constructor
    · intro l e hle
      rw [update_skills, List.getElem?_map, hr]
      simp [hle]
    · intro hnone
      rw [update_skills, List.getElem?_map, hr]
      simp [hnone]

theorem update_skills_spec_witness :
    (update_skills exOv exRows).length = 2 ∧
      (update_skills exOv exRows)[0]? = some ⟨"A", 3, 10000000⟩ ∧
      (update_skills exOv exRows)[1]? = some ⟨"B", 1, 100⟩ := by
  obtain ⟨hlen, hrow⟩ := update_skills_spec exOv exRows
  refine ⟨hlen, ?_, ?_⟩
  · exact (hrow 0 ⟨"A", 0, 0⟩ rfl).1 3 10000000 (by decide)
  · exact (hrow 1 ⟨"B", 1, 100⟩ rfl).2 (by decide)

/-- C7 (corrected): the original claim also asserts that `save` signals
`UpdateFailed` whenever zero rows were affected, but the source performs no
such check (see the counterexample).  Amended: `save_prisoner` writes back
only the `body_simulation` column of the rows matching the record id, leaves
every other column and every non-matching row unchanged, deletes or creates
no row, and returns the affected-row count (the cursor's `rowcount`), which
is zero exactly when no row matches; a zero count is returned normally, no
`UpdateFailed` is signalled. -/
theorem save_prisoner_spec (table : List Prisoner) (p : Prisoner) :
    ((save_prisoner table p).1).length = table.length ∧
    (∀ (i : Nat) (r : Prisoner), table[i]? = some r →
      (r.id ≠ p.id → (save_prisoner table p).1[i]? = some r) ∧
      (r.id = p.id →
        (save_prisoner table p).1[i]? = some ⟨r.id, p.body_simulation, r.rest⟩)) ∧
    ((save_prisoner table p).2 = 0 ↔ ∀ r ∈ table, r.id ≠ p.id) := by
  have h1 : (save_prisoner table p).1 = table.map (fun r =>
      if r.id = p.id then { r with body_simulation := p.body_simulation } else r) := rfl
  have h2 : (save_prisoner table p).2 = (table.filter fun r => r.id == p.id).length := rfl
  refine ⟨?_, ?_, ?_⟩
  · rw [h1, List.length_map]
  · intro i r hr
    constructor
    · intro hne
      rw [h1, List.getElem?_map, hr]
      simp [hne]
    · intro heq
      rw [h1, List.getElem?_map, hr]
      simp [heq]
  · rw [h2, List.length_eq_zero, List.filter_eq_nil_iff]
    simp

theorem save_prisoner_spec_witness :
    (save_prisoner exTable exSave).1[0]? = some ⟨1, [5], [("x", 2)]⟩ ∧
      (save_prisoner exTable exSave).1[1]? = some ⟨2, [9], []⟩ ∧
      (save_prisoner exTable exSave).2 ≠ 0 := by
  obtain ⟨-, hrow, hzero⟩ := save_prisoner_spec exTable exSave
  refine ⟨?_, ?_, ?_⟩
  · exact (hrow 0 ⟨1, [7], [("x", 2)]⟩ rfl).2 rfl
  · exact (hrow 1 ⟨2, [9], []⟩ rfl).1 (by decide)
  · intro h0
    exact (hzero.mp h0) ⟨1, [7], [("x", 2)]⟩ (by decide) rfl

/-- C7 counterexample: the claim says `save` signals `UpdateFailed` whenever
zero rows were affected; the source contains no such check — on a table with
no matching record the call returns normally with affected count 0 and raises
nothing (the model's return type has no error case at all, mirroring the
absence of any raise in the source). -/
theorem save_prisoner_zero_rows_cex :
    save_prisoner [] ⟨1, [0], []⟩ = ([], 0) := rfl

/-- C8 (corrected): the original claim says `load` fails with `NotFoundError`
when no record with the given id exists, but the source performs no such
check: it crashes with a `TypeError` from `zip(cur.description, None)` (see
the counterexample; the spec itself flags this as a gap).  Amended:
`load_prisoner` returns the column-name→value mapping of a record matching
the id when one exists (the first row `fetchone()` yields), and when none
exists it fails with the unhandled `TypeError`, not with a dedicated
`NotFoundError`. -/
theorem load_prisoner_spec (table : List Prisoner) (id : Int) :
    ((∃ r ∈ table, r.id = id) →
      ∃ r, load_prisoner table id = Except.ok r ∧ r ∈ table ∧ r.id = id) ∧
    ((∀ r ∈ table, r.id ≠ id) →
      load_prisoner table id = Except.error LoadError.typeError) := by
  constructor
  · rintro ⟨r0, hr0, hid0⟩
    have hsome : (table.find? (fun r => r.id == id)).isSome = true := by
      rw [List.find?_isSome]
      exact ⟨r0, hr0, by simpa using hid0⟩
    obtain ⟨r, hr⟩ := Option.isSome_iff_exists.mp hsome
    refine ⟨r, ?_, List.mem_of_find?_eq_some hr, by simpa using List.find?_some hr⟩
    unfold load_prisoner
    rw [hr]
  · intro hall
    have hnone : table.find? (fun r => r.id == id) = none := by
      rw [List.find?_eq_none]
      intro r hr
      simpa using hall r hr
    unfold load_prisoner
    rw [hnone]

theorem load_prisoner_spec_witness :
    (∃ r, load_prisoner exTable 1 = Except.ok r ∧ r ∈ exTable ∧ r.id = 1) ∧
      load_prisoner exTable 3 = Except.error LoadError.typeError := by
  refine ⟨?_, ?_⟩
  · exact (load_prisoner_spec exTable 1).1 ⟨⟨1, [7], [("x", 2)]⟩, by decide, rfl⟩
  · exact (load_prisoner_spec exTable 3).2 (by decide)

/-- C8 counterexample: with an empty table (no record with id 1) the source
fails with the `TypeError` raised by `zip(cur.description, None)`, which is
not the spec's `NotFoundError`. -/
theorem load_prisoner_missing_cex :
    load_prisoner [] 1 = Except.error LoadError.typeError ∧
      LoadError.typeError ≠ LoadError.notFoundError :=
  ⟨rfl, by decide⟩

end MaxPrisoner
